import Mathlib

/-!
# Verification of the autoclipper RSS pipeline against its specification

Shallow embedding of the pipeline's core functions, translated from the
Python sources of the repository:

* `app/workers/pipeline_v2.py` — `_apply_recut`, `_snap_and_clean`,
  `transcribe_pass2_job` (word-timing extraction);
* `app/services/candidate_segments.py` — `candidates_from_chapters`,
  `candidates_from_silence` (pure core over the parsed silence list);
* `app/services/scoring.py` — heuristic scorers, `compute_final_score`,
  `jaccard_similarity`, `diversity_filter`;
* `app/services/editor.py` — `Editor.cut_video` padding logic;
* `app/workers/scheduler.py` — `tick` (forward-only ingestion walk).

Modelling conventions: Python floats holding seconds and scores are
modelled as exact rationals (`ℚ`); all arithmetic in the translated code
is plain rational arithmetic.  Python dictionaries with a fixed shape are
modelled as structures, `dict.get(k, d)` on an optional field as
`Option.getD`-style matches, and Python falsiness of numbers/strings is
translated explicitly where the source relies on it.  Python `re` usage
is compiled to a small backtracking matcher (`Pat`) that follows the
leftmost, greedy, priority-ordered semantics of the `re` module for the
pattern fragments actually used by the source.  Character classes
(`\w`, `\d`, `\s`) and case mapping are taken in their ASCII reading;
the texts the pipeline scores are treated at that granularity.
-/

namespace AutoClipper

/-- Python `max` on two rationals, written with `if` so that concrete
instances reduce in the kernel. -/
def pymax (a b : ℚ) : ℚ := if a ≤ b then b else a

/-- Python `min` on two rationals. -/
def pymin (a b : ℚ) : ℚ := if b ≤ a then b else a

/-- Python `abs` on a rational. -/
def pyabs (a : ℚ) : ℚ := if a < 0 then -a else a

/-- Clamp helper `_clamp` from `candidate_segments.py`:
`max(lo, min(hi, x))`. -/
def _clamp (x lo hi : ℚ) : ℚ := pymax lo (pymin hi x)

/-! ## Clip state and the QC re-cutter (`pipeline_v2.py`) -/

/-- One stored word-timing entry: `{"word": w, "start": s, "end": e}`,
times relative to the clip start at pass-2 time. -/
structure WordEntry where
  word : String
  start : ℚ
  stop : ℚ
  deriving DecidableEq, Repr

/-- The mutable clip fields touched by the re-cutter and Snap & Clean.
`timing_offset` models `clip.get("timing_offset", 0.0)` (absent key ↦ 0). -/
structure Clip where
  start_sec : ℚ
  end_sec : ℚ
  timing_offset : ℚ := 0
  was_recut : Bool := false
  word_timing : List WordEntry := []
  deriving DecidableEq, Repr

/-- A `recut_plan` object returned by final QC.  The shift fields model
`plan.get("shift_start_by_sec", 0.0)` where the JSON value may be absent;
non-numeric values, which the source coerces to `0.0` via its
`try/except`, are modelled as `none`. -/
structure RecutPlan where
  shift_start_by_sec : Option ℚ := none
  shift_end_by_sec : Option ℚ := none
  deriving DecidableEq, Repr

/-- `float(shift) if shift else 0.0` applied to an optional JSON number:
a missing value and the falsy `0.0` both yield `0.0`. -/
def recutShiftValue : Option ℚ → ℚ
  | none => 0
  | some x => x

/-- `_apply_recut` from `pipeline_v2.py` (lines 477–516): record the raw
`shift_start` as the timing-offset delta, clamp both shifts to
`[-3.0, 3.0]`, and apply them only if the shifted window keeps length
`≥ 30.0` and a non-negative start. -/
def _apply_recut (clip : Clip) (plan : RecutPlan) : Clip :=
  let shift_start := recutShiftValue plan.shift_start_by_sec
  let shift_end := recutShiftValue plan.shift_end_by_sec
  let timing_offset := shift_start
  let shift_start := pymax (-3) (pymin 3 shift_start)
  let shift_end := pymax (-3) (pymin 3 shift_end)
  let new_start := clip.start_sec + shift_start
  let new_end := clip.end_sec + shift_end
  if 30 ≤ new_end - new_start ∧ 0 ≤ new_start then
    { clip with
        start_sec := new_start
        end_sec := new_end
        was_recut := true
        timing_offset := clip.timing_offset + timing_offset }
  else
    clip

/-! ## Snap & Clean (`pipeline_v2.py`, `_snap_and_clean`) -/

/-- Filler-word set from `_snap_and_clean`. -/
def FILLERS : List String :=
  ["eee", "ee", "hmm", "umm", "uh", "yak", "so",
   "nah", "jadi", "okay", "oke", "terus", "berarti",
   "actually", "like", "you know", "basically", "literally",
   "anu", "ngg", "yg", "yang"]

/-- `"".join(x for x in w.lower() if x.isalpha())`. -/
def cleanWord (s : String) : String :=
  String.mk ((s.data.map Char.toLower).filter Char.isAlpha)

/-- The per-word test of the snap-start loop: not a filler, and either
longer than one letter or one of the allowed short words. -/
def isSubstantive (s : String) : Bool :=
  let cw := cleanWord s
  !(FILLERS.contains cw) && (decide (1 < cw.length) || ["i", "a", "di", "ke"].contains cw)

/-- The snap-start scan: relative start of the first substantive word,
`0.0` when every word is a filler. -/
def snapStartRel (words : List WordEntry) : ℚ :=
  match words.find? (fun w => isSubstantive w.word) with
  | some w => w.start
  | none => 0

/-- The body of `_snap_and_clean` for one clip: snap the start to the
first substantive word, snap the end to the last word's end, and accept
the adjustment only when the result is at least `5.0` seconds long.  The
timing offset accumulates the effective start shift. -/
def snapClip (c : Clip) : Clip :=
  match h : c.word_timing with
  | [] => c
  | w :: ws =>
    let orig_start := c.start_sec
    let snap_start_rel := snapStartRel (w :: ws)
    let snap_end_rel := ((w :: ws).getLast (by simp)).stop
    let new_start := orig_start + snap_start_rel
    let new_end := orig_start + snap_end_rel
    if 5 ≤ new_end - new_start then
      { c with
          start_sec := new_start
          end_sec := new_end
          timing_offset := c.timing_offset + (new_start - orig_start) }
    else
      c

/-- `_snap_and_clean` over a clip list (the loop appends each clip,
adjusted or untouched). -/
def _snap_and_clean (clips : List Clip) : List Clip :=
  clips.map snapClip

/-! ## Pass-2 word-timing extraction (`transcribe_pass2_job`) -/

/-- One recognized word of the accurate transcription pass, in absolute
seconds on the source timeline. -/
structure RecWord where
  word : String
  start : ℚ
  stop : ℚ
  deriving DecidableEq, Repr

/-- One recognized segment: absolute bounds, text, and its word list. -/
structure RecSegment where
  start : ℚ
  stop : ℚ
  text : String
  words : List RecWord
  deriving DecidableEq, Repr

/-- The stored entry for a word kept by pass 2: times made relative to
the clip's start (`word["start"] - clip["start_sec"]`), not clamped. -/
def relEntry (c : Clip) (w : RecWord) : WordEntry :=
  { word := w.word, start := w.start - c.start_sec, stop := w.stop - c.start_sec }

/-- The word-timing list built by `transcribe_pass2_job` (lines 311–333)
for one clip: walk all segments; for each segment touching the clip
window (`seg_end >= start_sec and seg_start <= end_sec`) keep every word
overlapping the window strictly (`word["end"] > start_sec and
word["start"] < end_sec`), storing clip-relative times. -/
def pass2WordTiming (segments : List RecSegment) (c : Clip) : List WordEntry :=
  segments.flatMap fun seg =>
    if c.start_sec ≤ seg.stop ∧ seg.start ≤ c.end_sec then
      (seg.words.filter fun w => c.start_sec < w.stop ∧ w.start < c.end_sec).map (relEntry c)
    else
      []

/-- The pass-2 transcript for one clip: the stripped texts of the
segments touching the window, joined by single spaces. -/
def pass2Transcript (segments : List RecSegment) (c : Clip) : String :=
  " ".intercalate ((segments.filter fun seg =>
    c.start_sec ≤ seg.stop ∧ seg.start ≤ c.end_sec).map fun seg => seg.text.trim)

/-! ## Candidate generation (`candidate_segments.py`) -/

/-- A candidate window (`Candidate` dataclass). -/
structure Candidate where
  start_sec : ℚ
  end_sec : ℚ
  strategy : String
  source_info : String := ""
  deriving DecidableEq, Repr

/-- One chapter record `{title, start_time, end_time}` as a parsed JSON
object; missing fields are `none`. -/
structure Chapter where
  title : Option String := none
  start_time : Option ℚ := none
  end_time : Option ℚ := none
  deriving DecidableEq, Repr

/-- `float(d.get(k) or 0.0)`: a missing field and the falsy `0.0` both
give `0.0`. -/
def chapterField : Option ℚ → ℚ
  | none => 0
  | some x => x

/-- `str(d.get("title") or "")`: missing title and the falsy empty
string both give `""`. -/
def chapterTitle : Option String → String
  | none => ""
  | some s => s

/-- Python `x or default` on an optional numeric policy argument:
`None` and the falsy `0` both select the settings default. -/
def orDefault (x : Option ℚ) (d : ℚ) : ℚ :=
  match x with
  | none => d
  | some v => if v = 0 then d else v

/-- Python `x or default` on an optional integer count. -/
def orDefaultNat (x : Option ℕ) (d : ℕ) : ℕ :=
  match x with
  | none => d
  | some v => if v = 0 then d else v

/-- The offsets generated by `range(0, n, shift)` for `n : ℤ` and a
positive integer stride, as rationals. -/
def rangeOffsets (n : ℤ) (shift : ℕ) : List ℚ :=
  if shift = 0 then []
  else (List.range (((n + shift - 1) / shift).toNat)).map fun k => ((k * shift : ℕ) : ℚ)

/-- The inner window emission of `candidates_from_chapters` for one
chapter `[s, e]` with window length `win`: slide at the stride offsets,
clip the final window back into the chapter, clamp both bounds to
`[0, D]`, and keep windows of length `≥ min_len`. -/
def chapterWindows (D s e win min_len : ℚ) (title : String) (shift : ℕ) : List Candidate :=
  (rangeOffsets ⌊e - s⌋ shift).filterMap fun offset =>
    let start := s + offset
    let endv := start + win
    let start := if e < endv then pymax s (e - win) else start
    let endv := if e < endv then e else endv
    let start := _clamp start 0 D
    let endv := _clamp endv 0 D
    if min_len ≤ endv - start then
      some { start_sec := start, end_sec := endv, strategy := "CHAPTER", source_info := title }
    else
      none

/-- `candidates_from_chapters` (lines 28–89): effective policy values via
falsy-`or` defaults, skip chapters with `end <= start`, emit the slid
windows of each remaining chapter, and truncate to the global limit. -/
def candidates_from_chapters (duration_sec : ℚ) (chapters : List Chapter)
    (min_dur max_dur : Option ℚ) (max_items : Option ℕ)
    (cand_min_sec cand_max_sec : ℚ) (cand_shift_sec : ℕ) (cand_max_per_video : ℕ) :
    List Candidate :=
  let min_len := orDefault min_dur cand_min_sec
  let max_len := orDefault max_dur cand_max_sec
  let limit := orDefaultNat max_items cand_max_per_video
  (chapters.flatMap fun ch =>
    let s := chapterField ch.start_time
    let e := chapterField ch.end_time
    if e ≤ s then []
    else
      chapterWindows duration_sec s e (_clamp (e - s) min_len max_len) min_len
        (chapterTitle ch.title) cand_shift_sec).take limit

/-- The speech-block accumulation of `candidates_from_silence`: walk the
sorted silence intervals keeping a cursor `cur`; a gap becomes a speech
block only when the next silence starts more than `1.0` second after the
cursor.  Returns the blocks together with the final cursor. -/
def speechBlocksAux : ℚ → List (ℚ × ℚ) → List (ℚ × ℚ) × ℚ
  | cur, [] => ([], cur)
  | cur, (s0, s1) :: rest =>
    let r := speechBlocksAux (pymax cur s1) rest
    (if cur + 1 < s0 then (cur, s0) :: r.1 else r.1, r.2)

/-- All speech blocks for a silence list (sorted by silence start) and a
total duration: the inter-silence gaps plus the tail block when the
cursor is more than `1.0` second short of the end. -/
def speechBlocks (silences : List (ℚ × ℚ)) (duration_sec : ℚ) : List (ℚ × ℚ) :=
  let sorted := silences.mergeSort fun a b => decide (a.1 ≤ b.1)
  let r := speechBlocksAux 0 sorted
  r.1 ++ (if r.2 < duration_sec - 1 then [(r.2, duration_sec)] else [])

/-- The iteration count of the sliding-window `while` loop
`t = b0; while t + min_len <= b1: ...; t += shift`: all `k` with
`b0 + k·shift + min_len ≤ b1`. -/
def slideCount (b0 b1 min_len : ℚ) (shift : ℕ) : ℕ :=
  if b0 + min_len ≤ b1 ∧ shift ≠ 0 then (⌊(b1 - b0 - min_len) / shift⌋ + 1).toNat else 0

/-- The window emission of `candidates_from_silence` for one speech
block: slide from `b0` at the stride while a `min_len` window still
fits, end each window at `min(t + win, b1)`, and keep windows of length
`≥ min_len`.  The source tag is `f"speech_{int(b0)}s"`; block starts are
never negative here, so `int` truncation is the floor. -/
def silenceWindows (b0 b1 win min_len : ℚ) (shift : ℕ) : List Candidate :=
  (List.range (slideCount b0 b1 min_len shift)).filterMap fun k =>
    let t := b0 + (k * shift : ℕ)
    let start := t
    let endv := pymin (t + win) b1
    if min_len ≤ endv - start then
      some { start_sec := start, end_sec := endv, strategy := "SILENCE",
             source_info := "speech_" ++ toString ⌊b0⌋ ++ "s" }
    else
      none

/-- The pure core of `candidates_from_silence` (lines 119–212), taking
the parsed silence list in place of the ffmpeg subprocess: build speech
blocks, skip blocks shorter than `min_len`, slide windows through the
rest, and truncate to the global limit. -/
def candidates_from_silence (silences : List (ℚ × ℚ)) (duration_sec : ℚ)
    (min_dur max_dur : Option ℚ) (max_items : Option ℕ)
    (cand_min_sec cand_max_sec : ℚ) (cand_shift_sec : ℕ) (cand_max_per_video : ℕ) :
    List Candidate :=
  let min_len := orDefault min_dur cand_min_sec
  let max_len := orDefault max_dur cand_max_sec
  let limit := orDefaultNat max_items cand_max_per_video
  ((speechBlocks silences duration_sec).flatMap fun b =>
    if b.2 - b.1 < min_len then []
    else silenceWindows b.1 b.2 (_clamp (b.2 - b.1) min_len max_len) min_len cand_shift_sec).take
    limit

/-! ## Media cutter padding (`editor.py`, `Editor.cut_video`) -/

/-- The padded extraction interval of `cut_video`:
`start = max(0, start - 1.5); end = end + 1.5`; ffmpeg is then invoked
with seek `start` and duration `end - start`, i.e. it extracts exactly
`[max(0, start - 1.5), end + 1.5]`. -/
def cutInterval (start endv : ℚ) : ℚ × ℚ :=
  (pymax 0 (start - 3/2), endv + 3/2)

/-! ## Forward-only feed ingestion (`scheduler.py`, `tick`) -/

/-- One parsed feed entry as produced by `parse_feed`: the video id may
be missing (`None`), the publication instant is always a parsed datetime
(modelled as an integer timestamp). -/
structure FeedEntry where
  youtube_video_id : Option String
  title : String
  published_at : ℤ
  deriving DecidableEq, Repr

/-- The subscription fields read by `tick`. -/
structure ChannelState where
  baseline_set : Bool
  last_seen_video_id : Option String
  last_seen_published_at : Option ℤ
  deriving DecidableEq, Repr

/-- Python falsiness of the entry id: `None` or the empty string. -/
def entryIdFalsy : Option String → Bool
  | none => true
  | some s => s = ""

/-- The entry walk of `tick` (case 2, lines 55–82) producing
`new_videos`: skip entries with a falsy id, stop at the baseline video
id, skip entries not strictly newer than a known baseline instant, and
skip ids already present in the item store. -/
def tickWalk (ch : ChannelState) (store : List String) : List FeedEntry → List FeedEntry
  | [] => []
  | e :: rest =>
    if entryIdFalsy e.youtube_video_id then tickWalk ch store rest
    else
      match e.youtube_video_id with
      | none => tickWalk ch store rest
      | some yid =>
        if ch.last_seen_video_id = some yid then []
        else
          match ch.last_seen_published_at with
          | some t0 =>
            if e.published_at ≤ t0 then tickWalk ch store rest
            else if store.contains yid then tickWalk ch store rest
            else e :: tickWalk ch store rest
          | none =>
            if store.contains yid then tickWalk ch store rest
            else e :: tickWalk ch store rest

/-- The entries of one poll tick that create a new Item for a channel:
nothing when the baseline is not yet set (the first poll only records
the baseline), otherwise the forward-only walk. -/
def tickNewItems (ch : ChannelState) (store : List String) (entries : List FeedEntry) :
    List FeedEntry :=
  if ch.baseline_set then tickWalk ch store entries else []

/-! ## Heuristic scoring (`scoring.py`)

Python string helpers used by the scorers.  They are written over
`List Char` (the character data of a Lean string) with structural
recursion, so that concrete instances reduce in the kernel:
`s.lower()` ↦ mapping `Char.toLower`, `s.strip()` ↦ dropping whitespace
at both ends, `s.split()` ↦ splitting on whitespace runs with no empty
parts, `needle in hay` ↦ substring containment, and `hay.count(needle)`
↦ non-overlapping occurrence count. -/

/-- `text.lower()` as character data. -/
def lowerData (s : String) : List Char :=
  s.data.map Char.toLower

/-- The accumulator pass of Python `str.split()`: collect maximal
non-whitespace runs. -/
def splitWsAux : List Char → List Char → List (List Char)
  | acc, [] => if acc.isEmpty then [] else [acc.reverse]
  | acc, c :: rest =>
    if c.isWhitespace then
      if acc.isEmpty then splitWsAux [] rest
      else acc.reverse :: splitWsAux [] rest
    else
      splitWsAux (c :: acc) rest

/-- `t.split()`: whitespace-separated words, no empty parts. -/
def pyWords (t : List Char) : List (List Char) :=
  splitWsAux [] t

/-- `" ".join(ws)`. -/
def joinSpace (ws : List (List Char)) : List Char :=
  List.intercalate [' '] ws

/-- Python `needle in hay`. -/
def pyContains : List Char → List Char → Bool
  | [], needle => needle.isEmpty
  | hay@(_ :: rest), needle => needle.isPrefixOf hay || pyContains rest needle

/-- Fuelled scan of Python `hay.count(needle)` for a non-empty needle:
non-overlapping occurrences, left to right. -/
def pyCountAux (needle : List Char) : ℕ → List Char → ℕ
  | 0, _ => 0
  | _ + 1, [] => 0
  | fuel + 1, hay@(_ :: rest) =>
    if needle.isPrefixOf hay then 1 + pyCountAux needle fuel (hay.drop needle.length)
    else pyCountAux needle fuel rest

/-- Python `hay.count(needle)` for a non-empty needle. -/
def pyCount (hay needle : List Char) : ℕ :=
  pyCountAux needle (hay.length + 1) hay

/-- Occurrences of a single character. -/
def charCount (l : List Char) (c : Char) : ℕ :=
  (l.filter fun d => d = c).length

/-- Python `str.strip()`: drop whitespace at both ends. -/
def trimData (l : List Char) : List Char :=
  (((l.dropWhile Char.isWhitespace).reverse.dropWhile Char.isWhitespace)).reverse

/-! ### A small backtracking matcher for the regexes of `scoring.py`

The source uses `re.search` and `re.findall` on five fixed patterns.
They are compiled here into a pattern AST (`Pat`) whose matcher follows
the `re` module's backtracking semantics: alternatives in written order,
`+`/`?` greedy, leftmost match wins, and scanning resumes after the end
of each match. -/

/-- Python `\w` (ASCII view): letters, digits, underscore. -/
def isWordChar (c : Char) : Bool :=
  c.isAlphanum || c = '_'

/-- Word-ness of an optional boundary character (out of range counts as
non-word). -/
def wordOpt : Option Char → Bool
  | none => false
  | some c => isWordChar c

/-- `\b`: the previous and next character disagree on word-ness. -/
def isBoundary (prev next : Option Char) : Bool :=
  wordOpt prev != wordOpt next

/-- Pattern AST covering the regex fragments used by the source:
character classes, `+` on a class, literals, `?`, ordered alternation,
concatenation, and `\b`. -/
inductive Pat where
  | cls (p : Char → Bool)
  | plus (p : Char → Bool)
  | lit (s : List Char)
  | opt (r : Pat)
  | alt (p q : Pat)
  | cat (p q : Pat)
  | bound

/-- Greedy outcomes of `p+`: consume a maximal non-empty run, longest
continuation first.  Each outcome is (last consumed char, rest). -/
def plusOutcomes (p : Char → Bool) : Option Char → List Char → List (Option Char × List Char)
  | _, [] => []
  | _, c :: rest =>
    if p c then plusOutcomes p (some c) rest ++ [(some c, rest)] else []

/-- Match a literal prefix, tracking the last consumed character. -/
def litRun : List Char → Option Char → List Char → List (Option Char × List Char)
  | [], prev, l => [(prev, l)]
  | _ :: _, _, [] => []
  | c :: cs, _, d :: rest => if c = d then litRun cs (some d) rest else []

/-- All ways a pattern can match a prefix of the input, in backtracking
priority order; `prev` is the character before the current position. -/
def Pat.run : Pat → Option Char → List Char → List (Option Char × List Char)
  | .cls p, _, l =>
    match l with
    | [] => []
    | c :: rest => if p c then [(some c, rest)] else []
  | .plus p, prev, l => plusOutcomes p prev l
  | .lit s, prev, l => litRun s prev l
  | .opt r, prev, l => r.run prev l ++ [(prev, l)]
  | .alt p q, prev, l => p.run prev l ++ q.run prev l
  | .cat p q, prev, l => (p.run prev l).flatMap fun o => q.run o.1 o.2
  | .bound, prev, l => if isBoundary prev l.head? then [(prev, l)] else []

/-- `re.search` as a boolean: try the pattern at every position. -/
def searchAux (pat : Pat) : Option Char → List Char → Bool
  | prev, [] => !(pat.run prev []).isEmpty
  | prev, c :: rest => !(pat.run prev (c :: rest)).isEmpty || searchAux pat (some c) rest

/-- `re.search(pat, s) is not None`. -/
def reSearch (pat : Pat) (s : List Char) : Bool :=
  searchAux pat none s

/-- Count matches as `len(re.findall(pat, s))`: scan left to right,
take the first (greedy) match at each position, resume after its end;
on failure advance one character.  Fuel bounds the scan. -/
def countAux (pat : Pat) : ℕ → Option Char → List Char → ℕ
  | 0, _, _ => 0
  | fuel + 1, prev, l =>
    match pat.run prev l with
    | o :: _ => 1 + countAux pat fuel o.1 o.2
    | [] =>
      match l with
      | [] => 0
      | c :: rest => countAux pat fuel (some c) rest

/-- `len(re.findall(pat, s))`. -/
def countMatches (pat : Pat) (s : List Char) : ℕ :=
  countAux pat (s.length + 1) none s

/-- Ordered alternation over a non-empty list of patterns. -/
def altPats (p : Pat) (ps : List Pat) : Pat :=
  ps.foldl .alt p

/-- Literal pattern from a string. -/
def litS (s : String) : Pat :=
  .lit s.data

/-- Ordered alternation of string literals. -/
def altStrs (s : String) (ss : List String) : Pat :=
  altPats (litS s) (ss.map litS)

/-- The numeric-token pattern of `finance_score`:
`\b\d+(\.\d+)?%?\b`. -/
def numTokenPat : Pat :=
  .cat .bound (.cat (.plus Char.isDigit)
    (.cat (.opt (.cat (litS ".") (.plus Char.isDigit)))
      (.cat (.opt (litS "%")) .bound)))

/-- `ACTION_PATTERNS[0]`:
`\b(3|tiga|5|lima|7|tujuh|10)\s+(hal|cara|langkah|tips|step)\b`. -/
def actionPat1 : Pat :=
  .cat .bound (.cat (altStrs "3" ["tiga", "5", "lima", "7", "tujuh", "10"])
    (.cat (.plus Char.isWhitespace)
      (.cat (altStrs "hal" ["cara", "langkah", "tips", "step"]) .bound)))

/-- `ACTION_PATTERNS[1]`: `\b(cara|how to|steps?|tips?)\b`. -/
def actionPat2 : Pat :=
  .cat .bound (.cat (altPats (litS "cara")
    [litS "how to",
     .cat (litS "step") (.opt (litS "s")),
     .cat (litS "tip") (.opt (litS "s"))]) .bound)

/-- `ACTION_PATTERNS[2]`:
`\b(lakukan|stop|mulai|catat|hindari|coba|ingat|harus)\b`. -/
def actionPat3 : Pat :=
  .cat .bound (.cat (altStrs "lakukan"
    ["stop", "mulai", "catat", "hindari", "coba", "ingat", "harus"]) .bound)

/-- `ACTION_PATTERNS[3]`:
`\b(first|second|third|pertama|kedua|ketiga)\b`. -/
def actionPat4 : Pat :=
  .cat .bound (.cat (altStrs "first"
    ["second", "third", "pertama", "kedua", "ketiga"]) .bound)

/-- `ACTION_PATTERNS`. -/
def ACTION_PATTERNS : List Pat :=
  [actionPat1, actionPat2, actionPat3, actionPat4]

/-- `HOOK_MARKERS_ID`. -/
def HOOK_MARKERS_ID : List String :=
  ["ternyata", "faktanya", "yang orang gak tau", "yang banyak orang",
   "ini salah", "salah kaprah", "masalahnya", "bahaya", "jangan",
   "kuncinya", "cara paling", "cara terbaik", "yang bikin",
   "yang kamu gak sadar", "ini penting", "rahasia", "trik",
   "sebenarnya", "padahal", "banyak yang salah"]

/-- `HOOK_MARKERS_EN`. -/
def HOOK_MARKERS_EN : List String :=
  ["here\x27s the truth", "most people", "the problem is", "this is why",
   "you\x27re doing it wrong", "the secret", "what nobody tells you",
   "let me be clear", "the real reason", "here\x27s what", "actually",
   "the truth is", "you need to know", "stop doing this"]

/-- `FIN_MARKERS`. -/
def FIN_MARKERS : List String :=
  ["roi", "return", "inflasi", "interest", "bunga", "compound",
   "risk", "diversify", "volatility", "margin", "leverage",
   "cashflow", "net worth", "yield", "cagr", "valuation",
   "liquidity", "drawdown", "saham", "investasi", "reksadana",
   "crypto", "bitcoin", "portfolio", "dividen"]

/-- `PAYOFF_MARKERS_ID`. -/
def PAYOFF_MARKERS_ID : List String :=
  ["jadi intinya", "makanya", "kesimpulannya", "intinya",
   "poinnya adalah", "yang penting", "takeaway"]

/-- `PAYOFF_MARKERS_EN`. -/
def PAYOFF_MARKERS_EN : List String :=
  ["so the point is", "that\x27s why", "in summary", "the takeaway is",
   "bottom line", "in conclusion", "the key is"]

/-- The vague-reference substrings counted by `clarity_score`. -/
def VAGUE_MARKERS : List String :=
  ["itu", "ini", "yang tadi", "gitu", "that", "it", "they", "those"]

/-- `hook_score`: markers inside the first 25 words (12 points each)
plus capped punctuation excitement, total capped at 100. -/
def hook_score (text : String) : ℚ :=
  let t := lowerData text
  let early := joinSpace ((pyWords t).take 25)
  let score : ℚ :=
    12 * ((HOOK_MARKERS_ID.filter fun m => pyContains early m.data).length : ℚ)
      + 12 * ((HOOK_MARKERS_EN.filter fun m => pyContains early m.data).length : ℚ)
      + pymin 10 (2 * (charCount early '!' : ℚ))
      + pymin 8 (3/2 * (charCount early '?' : ℚ))
  pymin 100 score

/-- `finance_score`: capped numeric-token signal plus 8 points per
finance marker, capped at 100. -/
def finance_score (text : String) : ℚ :=
  let t := lowerData text
  let score : ℚ :=
    pymin 20 (5 * (countMatches numTokenPat t : ℚ))
      + 8 * ((FIN_MARKERS.filter fun m => pyContains t m.data).length : ℚ)
  pymin 100 score

/-- `action_score`: 20 points per matched actionable pattern, capped at
100. -/
def action_score (text : String) : ℚ :=
  let t := lowerData text
  pymin 100 (20 * ((ACTION_PATTERNS.filter fun p => reSearch p t).length : ℚ))

/-- `payoff_score`: payoff markers inside the last 35 words, 25 points
each, capped at 100. -/
def payoff_score (text : String) : ℚ :=
  let t := lowerData text
  let ws := pyWords t
  let tail := joinSpace (ws.drop (ws.length - 35))
  let score : ℚ :=
    25 * ((PAYOFF_MARKERS_ID.filter fun m => pyContains tail m.data).length : ℚ)
      + 25 * ((PAYOFF_MARKERS_EN.filter fun m => pyContains tail m.data).length : ℚ)
  pymin 100 score

/-- `clarity_score`: `60 + 2·(words of length ≥ 7) − 6·(vague-substring
count)`, clamped to `[0, 100]`. -/
def clarity_score (text : String) : ℚ :=
  let t := lowerData text
  let vague_count := (VAGUE_MARKERS.map fun m => pyCount t m.data).sum
  let long_words := ((pyWords t).filter fun w => 7 ≤ w.length).length
  pymax 0 (pymin 100 (60 + 2 * (long_words : ℚ) - 6 * (vague_count : ℚ)))

/-- `pacing_score`: words-per-minute band scoring. -/
def pacing_score (word_count : ℕ) (duration_sec : ℚ) : ℚ :=
  if duration_sec ≤ 0 then 0
  else
    let wpm := ((word_count : ℚ) / duration_sec) * 60
    if wpm < 80 then 10
    else if 240 < wpm then 10
    else pymax 20 (pymin 100 (100 - (pyabs (wpm - 160) / 80) * 80))

/-- `RISK_PENALTY.get(flag, 0)`. -/
def riskPenaltyGet (f : String) : ℚ :=
  if f = "needs_context" then 10
  else if f = "too_slow" then 10
  else if f = "sensitive" then 15
  else if f = "unclear_audio" then 10
  else if f = "copyright_music" then 8
  else 0

/-- The result dictionary of `compute_final_score`. -/
structure ScoreFeatures where
  final_score : ℚ
  llm_score : ℚ
  hook_score : ℚ
  finance_score : ℚ
  action_score : ℚ
  payoff_score : ℚ
  clarity_score : ℚ
  pacing_score : ℚ
  risk_penalty : ℚ
  deriving DecidableEq, Repr

/-- `compute_final_score` (lines 188–235): the weighted fusion of the
heuristic features with the LLM score, minus the summed risk penalties,
clamped to `[0, 100]`. -/
def compute_final_score (llm_score : ℚ) (text : String) (risk_flags : List String)
    (duration_sec : ℚ) : ScoreFeatures :=
  let wc := (pyWords text.data).length
  let s_hook := hook_score text
  let s_fin := finance_score text
  let s_action := action_score text
  let s_payoff := payoff_score text
  let s_clarity := clarity_score text
  let s_pacing := pacing_score wc duration_sec
  let penalty := (risk_flags.map riskPenaltyGet).sum
  let final :=
    0.50 * llm_score + 0.18 * s_hook + 0.10 * s_fin + 0.08 * s_action
      + 0.08 * s_payoff + 0.04 * s_clarity + 0.02 * s_pacing - penalty
  { final_score := pymax 0 (pymin 100 final)
    llm_score := llm_score
    hook_score := s_hook
    finance_score := s_fin
    action_score := s_action
    payoff_score := s_payoff
    clarity_score := s_clarity
    pacing_score := s_pacing
    risk_penalty := penalty }

/-- Modelled from the spec: the risk penalty read as a sum "over the
risk-flag set", i.e. counting each distinct flag once. -/
def riskPenaltyOverSet (risk_flags : List String) : ℚ :=
  (risk_flags.dedup.map riskPenaltyGet).sum

/-! ## Diversity filter (`scoring.py`, `jaccard_similarity`,
`diversity_filter`) -/

/-- `jaccard_similarity`: `0.0` for two empty sets, else
`len(a & b) / max(1, len(a | b))`. -/
def jaccard_similarity (a b : Finset String) : ℚ :=
  if a = ∅ ∧ b = ∅ then 0
  else ((a ∩ b).card : ℚ) / (max 1 ((a ∪ b).card) : ℕ)

/-- Keyword-set normalization of `diversity_filter`:
`set(k.lower().strip() for k in kws if k and k.strip())`. -/
def normKeywords (kws : List String) : Finset String :=
  ((kws.filter fun k => !k.data.isEmpty && !(trimData k.data).isEmpty).map
    fun k => String.mk (trimData (lowerData k))).toFinset

/-- The inner similarity loop of `diversity_filter` with its early
`break`: diverse iff no kept entry reaches the threshold. -/
def isDiverseLoop (kwset : Finset String) (threshold : ℚ) :
    List (String × ℚ × Finset String) → Bool
  | [] => true
  | e :: rest =>
    if threshold ≤ jaccard_similarity kwset e.2.2 then false
    else isDiverseLoop kwset threshold rest

/-- The greedy keep loop of `diversity_filter` over the score-sorted
list, accumulating kept entries in order. -/
def diversityAux (threshold : ℚ) :
    List (String × ℚ × List String) → List (String × ℚ × Finset String) →
    List (String × ℚ × Finset String)
  | [], kept => kept
  | (cid, score, kws) :: rest, kept =>
    let kwset := normKeywords kws
    if isDiverseLoop kwset threshold kept then
      diversityAux threshold rest (kept ++ [(cid, score, kwset)])
    else
      diversityAux threshold rest kept

/-- `diversity_filter` (lines 245–278): stable sort by score descending
(`sorted(..., reverse=True)`), then the greedy similarity filter,
returning kept clip ids. -/
def diversity_filter (items : List (String × ℚ × List String)) (threshold : ℚ := 0.7) :
    List String :=
  let sorted_items := items.mergeSort fun a b => decide (b.2.1 ≤ a.2.1)
  (diversityAux threshold sorted_items []).map fun k => k.1

/-- Modelled from the spec's wording of the greedy step: keep a
candidate exactly when its keyword set has Jaccard similarity below the
threshold with every already-kept candidate. -/
def diversityAuxSpec (threshold : ℚ) :
    List (String × ℚ × List String) → List (String × ℚ × Finset String) →
    List (String × ℚ × Finset String)
  | [], kept => kept
  | (cid, score, kws) :: rest, kept =>
    let kwset := normKeywords kws
    if kept.all fun e => decide (jaccard_similarity kwset e.2.2 < threshold) then
      diversityAuxSpec threshold rest (kept ++ [(cid, score, kwset)])
    else
      diversityAuxSpec threshold rest kept

/-- The spec's description of the whole filter: sort by score
descending, then greedily keep candidates diverse from all kept ones. -/
def diversity_filter_spec (items : List (String × ℚ × List String))
    (threshold : ℚ := 0.7) : List String :=
  let sorted_items := items.mergeSort fun a b => decide (b.2.1 ≤ a.2.1)
  (diversityAuxSpec threshold sorted_items []).map fun k => k.1

/-! ## Bridging lemmas for the `if`-based order helpers -/

theorem pymax_eq (a b : ℚ) : pymax a b = max a b := by
  rw [pymax, max_def]

theorem pymin_eq (a b : ℚ) : pymin a b = min a b := by
  rw [pymin, min_comm, min_def]

theorem pyabs_eq (a : ℚ) : pyabs a = |a| := by
  rw [pyabs]
  rcases lt_or_le a 0 with h | h
  · rw [if_pos h, abs_of_neg h]
  · rw [if_neg (not_lt.mpr h), abs_of_nonneg h]

theorem _clamp_bounds (x D : ℚ) (hD : 0 ≤ D) :
    0 ≤ _clamp x 0 D ∧ _clamp x 0 D ≤ D := by
  rw [_clamp, pymax_eq, pymin_eq]
  constructor
  · exact le_max_left 0 _
  · exact max_le hD (min_le_left D x)

theorem _clamp_neg (x D : ℚ) (hD : D < 0) : _clamp x 0 D = 0 := by
  rw [_clamp, pymax_eq, pymin_eq]
  exact max_eq_left (le_of_lt (lt_of_le_of_lt (min_le_left D x) hD))

theorem mergeSort_pair {α : Type} (a b : α) (le : α → α → Bool) :
    List.mergeSort [a, b] le = if le a b then [a, b] else [b, a] := by
  simp [List.mergeSort, List.splitInTwo, List.splitAt, List.splitAt.go, List.merge]

/-! ## C4: the QC recut rule -/

/-- **C4.** The re-cutter adds the shift deltas, each clamped to
`[-3.0, 3.0]`, to `start_sec` and `end_sec`, but only if the shifted
window has length `≥ 30.0` and non-negative start; otherwise the clip is
returned unchanged (in particular `start_sec`, `end_sec` and `was_recut`
keep their values).  The clamped deltas always lie in `[-3.0, 3.0]`.
Instance: a clip `(start=100, end=175)` with `shift_start=+2.0`,
`shift_end=-1.0` becomes `(start=102, end=174)` with `timing_offset=+2.0`
and `was_recut=true`. -/
theorem recut_rule :
    (∀ (clip : Clip) (plan : RecutPlan) (ss se : ℚ),
      ss = pymax (-3) (pymin 3 (recutShiftValue plan.shift_start_by_sec)) →
      se = pymax (-3) (pymin 3 (recutShiftValue plan.shift_end_by_sec)) →
      (-3 ≤ ss ∧ ss ≤ 3 ∧ -3 ≤ se ∧ se ≤ 3) ∧
      (30 ≤ clip.end_sec + se - (clip.start_sec + ss) ∧ 0 ≤ clip.start_sec + ss →
        _apply_recut clip plan =
          { clip with
              start_sec := clip.start_sec + ss
              end_sec := clip.end_sec + se
              was_recut := true
              timing_offset :=
                clip.timing_offset + recutShiftValue plan.shift_start_by_sec }) ∧
      (¬(30 ≤ clip.end_sec + se - (clip.start_sec + ss) ∧ 0 ≤ clip.start_sec + ss) →
        _apply_recut clip plan = clip)) ∧
    (∀ t : ℚ, ∀ wr : Bool, ∀ wt : List WordEntry,
      _apply_recut ⟨100, 175, t, wr, wt⟩ ⟨some 2, some (-1)⟩ =
        ⟨102, 174, t + 2, true, wt⟩) := by
  constructor
  · intro clip plan ss se hss hse
    refine ⟨?_, ?_, ?_⟩
    · subst hss hse
      rw [pymax_eq, pymax_eq, pymin_eq, pymin_eq]
      refine ⟨le_max_left _ _, max_le (by norm_num) (min_le_left _ _),
        le_max_left _ _, max_le (by norm_num) (min_le_left _ _)⟩
    · intro h
      rw [_apply_recut]
      rw [← hss, ← hse]
      rw [if_pos h]
    · intro h
      rw [_apply_recut]
      rw [← hss, ← hse]
      rw [if_neg h]
  · intro t wr wt
    norm_num [_apply_recut, recutShiftValue, pymax, pymin]

/-- Witness for `recut_rule` at a concrete accepted recut. -/
theorem recut_rule_inst :
    _apply_recut ⟨0, 40, 0, false, []⟩ ⟨some 1, none⟩ =
      { start_sec := 1, end_sec := 40, timing_offset := 1, was_recut := true,
        word_timing := [] } := by
  have h := (recut_rule.1 ⟨0, 40, 0, false, []⟩ ⟨some 1, none⟩ 1 0
    (by norm_num [pymax, pymin, recutShiftValue])
    (by norm_num [pymax, pymin, recutShiftValue])).2.1 (by norm_num)
  rw [h]
  norm_num [recutShiftValue]

/-! ## C2: timing-offset bookkeeping -/

/-- **C2 (counterexample).** The claim says `timing_offset` increases by
exactly the amount the start was advanced.  For a recut plan requesting
`shift_start = 5.0`, the start advances by the clamped `3.0` while
`timing_offset` increases by the raw `5.0`. -/
theorem timing_offset_unclamped :
    (_apply_recut ⟨100, 175, 0, false, []⟩ ⟨some 5, some 0⟩).start_sec - 100 = 3 ∧
    (_apply_recut ⟨100, 175, 0, false, []⟩ ⟨some 5, some 0⟩).timing_offset - 0 = 5 ∧
    (3 : ℚ) ≠ 5 := by
  norm_num [_apply_recut, recutShiftValue, pymax, pymin]

/-- **C2 (amended).** When a recut is accepted, `timing_offset` grows by
the *raw* `shift_start` value while `start_sec` grows by its clamped
value; the two deltas agree exactly when the raw `shift_start` lies in
`[-3.0, 3.0]`.  For Snap & Clean the bookkeeping is exact: the
timing-offset delta always equals the start-second delta. -/
theorem timing_offset_bookkeeping :
    (∀ (clip : Clip) (plan : RecutPlan),
      (30 ≤ clip.end_sec + pymax (-3) (pymin 3 (recutShiftValue plan.shift_end_by_sec)) -
            (clip.start_sec + pymax (-3) (pymin 3 (recutShiftValue plan.shift_start_by_sec))) ∧
        0 ≤ clip.start_sec + pymax (-3) (pymin 3 (recutShiftValue plan.shift_start_by_sec))) →
      (_apply_recut clip plan).timing_offset - clip.timing_offset =
          recutShiftValue plan.shift_start_by_sec ∧
        (_apply_recut clip plan).start_sec - clip.start_sec =
          pymax (-3) (pymin 3 (recutShiftValue plan.shift_start_by_sec))) ∧
    (∀ (clip : Clip) (plan : RecutPlan),
      -3 ≤ recutShiftValue plan.shift_start_by_sec →
      recutShiftValue plan.shift_start_by_sec ≤ 3 →
      (_apply_recut clip plan).timing_offset - clip.timing_offset =
        (_apply_recut clip plan).start_sec - clip.start_sec) ∧
    (∀ c : Clip,
      (snapClip c).timing_offset - c.timing_offset = (snapClip c).start_sec - c.start_sec) := by
  refine ⟨?_, ?_, ?_⟩
  · intro clip plan h
    rw [_apply_recut, if_pos h]
    constructor <;> ring
  · intro clip plan h1 h2
    have hclamp : pymax (-3) (pymin 3 (recutShiftValue plan.shift_start_by_sec)) =
        recutShiftValue plan.shift_start_by_sec := by
      rw [pymax_eq, pymin_eq, min_eq_right h2, max_eq_right h1]
    rw [_apply_recut]
    split
    · rw [hclamp]
      ring_nf
    · ring_nf
  · intro c
    unfold snapClip
    split
    · ring_nf
    · dsimp only
      split
      · dsimp only
        ring_nf
      · ring_nf

/-- Witness for `timing_offset_bookkeeping` at a concrete recut. -/
theorem timing_offset_bookkeeping_inst :
    (_apply_recut ⟨0, 40, 0, false, []⟩ ⟨some 1, none⟩).timing_offset - 0 =
        recutShiftValue (some 1) ∧
      (_apply_recut ⟨0, 40, 0, false, []⟩ ⟨some 1, none⟩).start_sec - 0 =
        pymax (-3) (pymin 3 (recutShiftValue (some 1))) := by
  exact timing_offset_bookkeeping.1 ⟨0, 40, 0, false, []⟩ ⟨some 1, none⟩
    (by norm_num [pymax, pymin, recutShiftValue])

/-! ## C1: the clip-window invariant -/

/-- **C1 (counterexample).** `_apply_recut` never checks the item's
duration: for an item of duration `100` and a clip `(60, 100)` that
satisfies the window invariant, the accepted plan `shift_end = +2`
produces `end_sec = 102 > 100`, breaking the invariant. -/
theorem recut_end_exceeds_duration :
    ((0 : ℚ) ≤ 60 ∧ (60 : ℚ) < 100 ∧ (100 : ℚ) ≤ 100) ∧
    (_apply_recut ⟨60, 100, 0, false, []⟩ ⟨some 0, some 2⟩).end_sec = 102 ∧
    ¬((_apply_recut ⟨60, 100, 0, false, []⟩ ⟨some 0, some 2⟩).end_sec ≤ 100) := by
  norm_num [_apply_recut, recutShiftValue, pymax, pymin]

/-- **C1 (amended).** Candidate emission from chapters establishes the
full window invariant (`0 ≤ start < end ≤ D`, for a positive effective
minimum length).  `_apply_recut` preserves `0 ≤ start_sec` and
`start_sec < end_sec` but does not bound `end_sec` by the duration.
`_snap_and_clean` preserves the full invariant provided every
word-timing entry denotes a word lying inside `[0, D]` in absolute
time. -/
theorem chapterWindows_invariant (D s e win min_len : ℚ) (title : String) (shift : ℕ)
    (hmin : 0 < min_len) :
    ∀ cand ∈ chapterWindows D s e win min_len title shift,
      0 ≤ cand.start_sec ∧ cand.start_sec < cand.end_sec ∧ cand.end_sec ≤ D := by
  intro cand hcand
  rw [chapterWindows, List.mem_filterMap] at hcand
  obtain ⟨offset, -, heq⟩ := hcand
  dsimp only at heq
  have key : ∀ A B : ℚ,
      (if min_len ≤ _clamp B 0 D - _clamp A 0 D then
        some (Candidate.mk (_clamp A 0 D) (_clamp B 0 D) "CHAPTER" title)
      else none) = some cand →
      0 ≤ cand.start_sec ∧ cand.start_sec < cand.end_sec ∧ cand.end_sec ≤ D := by
    intro A B hAB
    split at hAB
    · rename_i hlen
      injection hAB with hAB
      subst hAB
      dsimp only
      rcases le_or_lt 0 D with hD | hD
      · obtain ⟨h1, h2⟩ := _clamp_bounds A D hD
        obtain ⟨h3, h4⟩ := _clamp_bounds B D hD
        exact ⟨h1, by linarith, h4⟩
      · rw [_clamp_neg A D hD, _clamp_neg B D hD] at hlen
        exact absurd hlen (by simp; linarith)
    · exact absurd hAB (by simp)
  by_cases hcut : e < s + offset + win
  · rw [if_pos hcut, if_pos hcut] at heq
    exact key _ _ heq
  · rw [if_neg hcut, if_neg hcut] at heq
    exact key _ _ heq

theorem clip_window_invariant :
    (∀ (duration_sec : ℚ) (chapters : List Chapter) (min_dur max_dur : Option ℚ)
        (max_items : Option ℕ) (cand_min_sec cand_max_sec : ℚ) (cand_shift_sec : ℕ)
        (cand_max_per_video : ℕ),
      0 < orDefault min_dur cand_min_sec →
      ∀ cand ∈ candidates_from_chapters duration_sec chapters min_dur max_dur max_items
          cand_min_sec cand_max_sec cand_shift_sec cand_max_per_video,
        0 ≤ cand.start_sec ∧ cand.start_sec < cand.end_sec ∧ cand.end_sec ≤ duration_sec) ∧
    (∀ (clip : Clip) (plan : RecutPlan),
      0 ≤ clip.start_sec → clip.start_sec < clip.end_sec →
      0 ≤ (_apply_recut clip plan).start_sec ∧
        (_apply_recut clip plan).start_sec < (_apply_recut clip plan).end_sec) ∧
    (∀ (c : Clip) (D : ℚ),
      0 ≤ c.start_sec → c.start_sec < c.end_sec → c.end_sec ≤ D →
      (∀ w ∈ c.word_timing, 0 ≤ c.start_sec + w.start ∧ c.start_sec + w.stop ≤ D) →
      0 ≤ (snapClip c).start_sec ∧ (snapClip c).start_sec < (snapClip c).end_sec ∧
        (snapClip c).end_sec ≤ D) := by
  refine ⟨?_, ?_, ?_⟩
  · intro D chapters min_dur max_dur max_items cmin cmax cshift climit hmin cand hmem
    rw [candidates_from_chapters] at hmem
    have hmem' := List.mem_of_mem_take hmem
    rw [List.mem_flatMap] at hmem'
    obtain ⟨ch, -, hcand⟩ := hmem'
    rcases le_or_lt (chapterField ch.end_time) (chapterField ch.start_time) with hse | hse
    · rw [if_pos hse] at hcand
      exact absurd hcand (List.not_mem_nil cand)
    · rw [if_neg (not_le.mpr hse)] at hcand
      exact chapterWindows_invariant D (chapterField ch.start_time) (chapterField ch.end_time)
        _ _ (chapterTitle ch.title) cshift hmin cand hcand
  · intro clip plan h0 hlt
    rw [_apply_recut]
    split
    · rename_i h
      dsimp only
      exact ⟨h.2, by linarith [h.1]⟩
    · exact ⟨h0, hlt⟩
  · intro c D h0 hlt hD hwords
    unfold snapClip
    split
    · exact ⟨h0, hlt, hD⟩
    · rename_i w ws heq
      dsimp only
      split
      · rename_i hlen5
        dsimp only
        have hlast : ((w :: ws).getLast (by simp)) ∈ c.word_timing := by
          rw [heq]
          exact List.getLast_mem _
        have hstart : 0 ≤ c.start_sec + snapStartRel (w :: ws) := by
          rw [snapStartRel]
          rcases hfind : (w :: ws).find? (fun w => isSubstantive w.word) with - | w'
          · simp only [hfind]
            simpa using h0
          · have hw' : w' ∈ c.word_timing := by
              rw [heq]
              exact List.mem_of_find?_eq_some hfind
            simp only [hfind]
            exact (hwords w' hw').1
        refine ⟨hstart, by linarith, ?_⟩
        exact (hwords _ hlast).2
      · exact ⟨h0, hlt, hD⟩

/-- Witness for `clip_window_invariant` at concrete inputs for each of
its three parts. -/
theorem clip_window_invariant_inst :
    (0 ≤ (Candidate.mk 0 50 "CHAPTER" "").start_sec ∧
      (Candidate.mk 0 50 "CHAPTER" "").start_sec < (Candidate.mk 0 50 "CHAPTER" "").end_sec ∧
      (Candidate.mk 0 50 "CHAPTER" "").end_sec ≤ 100) ∧
    (0 ≤ (_apply_recut ⟨60, 100, 0, false, []⟩ ⟨some 1, some 0⟩).start_sec ∧
      (_apply_recut ⟨60, 100, 0, false, []⟩ ⟨some 1, some 0⟩).start_sec <
        (_apply_recut ⟨60, 100, 0, false, []⟩ ⟨some 1, some 0⟩).end_sec) ∧
    (0 ≤ (snapClip ⟨10, 40, 0, false, [⟨"hello", 1, 20⟩]⟩).start_sec ∧
      (snapClip ⟨10, 40, 0, false, [⟨"hello", 1, 20⟩]⟩).start_sec <
        (snapClip ⟨10, 40, 0, false, [⟨"hello", 1, 20⟩]⟩).end_sec ∧
      (snapClip ⟨10, 40, 0, false, [⟨"hello", 1, 20⟩]⟩).end_sec ≤ 100) := by
  refine ⟨?_, ?_, ?_⟩
  · exact clip_window_invariant.1 100 [⟨none, some 0, some 50⟩] (some 40) (some 50) none
      60 120 60 400 (by norm_num [orDefault]) ⟨0, 50, "CHAPTER", ""⟩
      (by norm_num [candidates_from_chapters, chapterWindows, chapterField, chapterTitle,
        orDefault, orDefaultNat, rangeOffsets, _clamp, pymax, pymin, List.range_succ,
        Function.comp, List.filterMap_cons])
  · exact clip_window_invariant.2.1 ⟨60, 100, 0, false, []⟩ ⟨some 1, some 0⟩
      (by norm_num) (by norm_num)
  · exact clip_window_invariant.2.2 ⟨10, 40, 0, false, [⟨"hello", 1, 20⟩]⟩ 100
      (by norm_num) (by norm_num) (by norm_num)
      (by intro w hw; simp at hw; subst hw; norm_num)

/-! ## C3: forward-only ingestion -/

/-- **C3.** On a poll tick for an active subscription whose baseline is
set (with a known baseline instant), no feed entry published at or
before the baseline instant creates a new Item: every entry of the
tick's `new_videos` list is strictly newer than the baseline. -/
theorem forward_only_ingestion (ch : ChannelState) (store : List String)
    (entries : List FeedEntry) (t0 : ℤ)
    (hb : ch.baseline_set = true) (ht : ch.last_seen_published_at = some t0) :
    ∀ e ∈ tickNewItems ch store entries, t0 < e.published_at := by
  rw [tickNewItems, if_pos hb]
  induction entries with
  | nil => intro e he; exact absurd he (List.not_mem_nil e)
  | cons a rest ih =>
    intro e he
    rw [tickWalk] at he
    split at he
    · exact ih e he
    · split at he
      · exact ih e he
      · split at he
        · exact absurd he (List.not_mem_nil e)
        · split at he
          · rename_i t0' heq
            split at he
            · exact ih e he
            · rename_i hnew
              split at he
              · exact ih e he
              · rcases List.mem_cons.mp he with rfl | he'
                · rw [ht] at heq
                  injection heq with heq'
                  rw [heq']
                  exact lt_of_not_le hnew
                · exact ih e he'
          · rename_i heq
            rw [ht] at heq
            exact absurd heq (by simp)

/-- Witness for `forward_only_ingestion`: a baseline at instant 10 and a
single entry published at 20; the walk admits it and the theorem yields
`10 < 20`. -/
theorem forward_only_ingestion_inst : (10 : ℤ) < 20 :=
  forward_only_ingestion ⟨true, some "base", some 10⟩ [] [⟨some "v", "t", 20⟩] 10
    rfl rfl ⟨some "v", "t", 20⟩ (by decide)

/-! ## C5: pass-2 word-timing extraction -/

/-- **C5 (counterexample).** Pass 2 does not clamp relative times: a
word `[9.5, 10.5]` overlapping the clip `[10, 40]` is stored with
relative start `-0.5 < 0`, so the stored entries do not all lie in
`[0, end_sec - start_sec + ε]`. -/
theorem pass2_word_timing_unclamped :
    pass2WordTiming [⟨9, 41, "", [⟨"w", 19/2, 21/2⟩]⟩] ⟨10, 40, 0, false, []⟩ =
      [⟨"w", -(1/2), 1/2⟩] ∧ (-(1/2) : ℚ) < 0 := by
  norm_num [pass2WordTiming, relEntry]

/-- **C5 (amended).** Provided every recognized word lies inside its
segment, a word is included in a clip's pass-2 `word_timing` exactly
when its `(start, end)` interval *strictly* overlaps the clip window
(`word_end > start_sec` and `word_start < end_sec`); each stored entry
is the word with times shifted by `-start_sec`, with no clamping, so a
boundary-straddling word may carry a negative relative start or a
relative end beyond `end_sec - start_sec`. -/
theorem pass2_word_timing_rule (segments : List RecSegment) (c : Clip)
    (hws : ∀ seg ∈ segments, ∀ w ∈ seg.words, seg.start ≤ w.start ∧ w.stop ≤ seg.stop) :
    (∀ seg ∈ segments, ∀ w ∈ seg.words,
      (relEntry c w ∈ pass2WordTiming segments c ↔
        c.start_sec < w.stop ∧ w.start < c.end_sec)) ∧
    (∀ entry ∈ pass2WordTiming segments c, ∃ seg ∈ segments, ∃ w ∈ seg.words,
      entry = relEntry c w ∧ c.start_sec < w.stop ∧ w.start < c.end_sec) := by
  constructor
  · intro seg hseg w hw
    constructor
    · intro hmem
      rw [pass2WordTiming, List.mem_flatMap] at hmem
      obtain ⟨seg', hseg', hmem⟩ := hmem
      split at hmem
      · rw [List.mem_map] at hmem
        obtain ⟨w', hw', heq⟩ := hmem
        rw [List.mem_filter] at hw'
        obtain ⟨-, hcond⟩ := hw'
        have hcond' := of_decide_eq_true hcond
        simp only [relEntry, WordEntry.mk.injEq] at heq
        obtain ⟨-, h2, h3⟩ := heq
        constructor
        · have : w'.stop = w.stop := by linarith
          rw [← this]
          exact hcond'.1
        · have : w'.start = w.start := by linarith
          rw [← this]
          exact hcond'.2
      · exact absurd hmem (List.not_mem_nil _)
    · intro hcond
      rw [pass2WordTiming, List.mem_flatMap]
      refine ⟨seg, hseg, ?_⟩
      rw [if_pos ⟨le_trans (le_of_lt hcond.1) (hws seg hseg w hw).2,
        le_of_lt (lt_of_le_of_lt (hws seg hseg w hw).1 hcond.2)⟩]
      exact List.mem_map_of_mem _ (List.mem_filter.mpr ⟨hw, decide_eq_true hcond⟩)
  · intro entry hmem
    rw [pass2WordTiming, List.mem_flatMap] at hmem
    obtain ⟨seg, hseg, hmem⟩ := hmem
    split at hmem
    · rw [List.mem_map] at hmem
      obtain ⟨w, hw, heq⟩ := hmem
      rw [List.mem_filter] at hw
      exact ⟨seg, hseg, w, hw.1, heq.symm, of_decide_eq_true hw.2⟩
    · exact absurd hmem (List.not_mem_nil _)

/-- Witness for `pass2_word_timing_rule` at a concrete segment, word
and clip. -/
theorem pass2_word_timing_inst :
    relEntry ⟨10, 40, 0, false, []⟩ ⟨"w", 19/2, 21/2⟩ ∈
      pass2WordTiming [⟨9, 41, "", [⟨"w", 19/2, 21/2⟩]⟩] ⟨10, 40, 0, false, []⟩ :=
  ((pass2_word_timing_rule [⟨9, 41, "", [⟨"w", 19/2, 21/2⟩]⟩] ⟨10, 40, 0, false, []⟩
      (by
        intro seg hseg w hw
        rw [List.mem_singleton] at hseg
        subst hseg
        dsimp only at hw
        rw [List.mem_singleton] at hw
        subst hw
        norm_num)).1
    ⟨9, 41, "", [⟨"w", 19/2, 21/2⟩]⟩ (by simp) ⟨"w", 19/2, 21/2⟩ (by simp)).mpr
    (by norm_num)

/-! ## C6: the silence-strategy micro-block guard -/

/-- **C6 (counterexample).** With effective `min_len = 30`, a silence
list `[(30, 31)]` over duration `31.5` produces the single speech block
`(0, 30)` of length exactly `min_len` — shorter than `min_len + 1.0` —
yet it yields a candidate window. -/
theorem silence_block_guard_counterexample :
    speechBlocks [(30, 31)] (63/2) = [(0, 30)] ∧
    ((30 : ℚ) - 0 < 30 + 1) ∧
    candidates_from_silence [(30, 31)] (63/2) (some 30) (some 120) none 60 120 15 400 =
      [⟨0, 30, "SILENCE", "speech_0s"⟩] := by
  refine ⟨?_, by norm_num, ?_⟩
  · simp only [speechBlocks, List.mergeSort_singleton, speechBlocksAux]
    norm_num [pymax, pymin]
  · rw [candidates_from_silence]
    simp only [speechBlocks, List.mergeSort_singleton, speechBlocksAux]
    norm_num [orDefault, orDefaultNat, silenceWindows, slideCount, _clamp, pymax, pymin,
      List.range_succ, List.filterMap_cons]
    decide

/-- Every gap block produced by the silence walk spans strictly more
than one second. -/
theorem speechBlocksAux_gap (l : List (ℚ × ℚ)) : ∀ (cur : ℚ),
    ∀ b ∈ (speechBlocksAux cur l).1, 1 < b.2 - b.1 := by
  induction l with
  | nil =>
    intro cur b hb
    rw [speechBlocksAux] at hb
    exact absurd hb (List.not_mem_nil b)
  | cons p rest ih =>
    intro cur b hb
    obtain ⟨s0, s1⟩ := p
    rw [speechBlocksAux] at hb
    dsimp only at hb
    split at hb
    · rename_i hgap
      rcases List.mem_cons.mp hb with rfl | hb'
      · dsimp only
        linarith
      · exact ih _ b hb'
    · exact ih _ b hb

/-- **C6 (amended).** A speech block yields candidate windows exactly
when its length is at least `min_len` (not `min_len + 1.0`); the
one-second guard instead applies when *forming* speech blocks: every
speech block (an inter-silence gap or the tail block) has length
strictly greater than `1.0`. -/
theorem silence_block_guard (b0 b1 min_len max_len : ℚ) (shift : ℕ)
    (hshift : 0 < shift) :
    (silenceWindows b0 b1 (_clamp (b1 - b0) min_len max_len) min_len shift ≠ [] ↔
      min_len ≤ b1 - b0) ∧
    (∀ (silences : List (ℚ × ℚ)) (D : ℚ), ∀ b ∈ speechBlocks silences D, 1 < b.2 - b.1) := by
  constructor
  · constructor
    · intro hne
      by_contra hlt
      rw [not_le] at hlt
      apply hne
      rw [silenceWindows, List.filterMap_eq_nil]
      intro k hk
      rw [List.mem_range, slideCount, if_neg] at hk
      · exact absurd hk (Nat.not_lt_zero k)
      · intro h
        exact absurd h.1 (by linarith)
    · intro hge hnil
      rw [silenceWindows, List.filterMap_eq_nil] at hnil
      have h0 : 0 ∈ List.range (slideCount b0 b1 min_len shift) := by
        rw [List.mem_range, slideCount,
          if_pos ⟨by linarith, Nat.pos_iff_ne_zero.mp hshift⟩]
        have hfl : (0 : ℤ) ≤ ⌊(b1 - b0 - min_len) / (shift : ℚ)⌋ := by
          apply Int.le_floor.mpr
          push_cast
          apply div_nonneg (by linarith)
          exact_mod_cast Nat.zero_le shift
        omega
      have hnone := hnil 0 h0
      dsimp only at hnone
      rw [if_pos] at hnone
      · exact Option.noConfusion hnone
      · have hwin : min_len ≤ _clamp (b1 - b0) min_len max_len := by
          rw [_clamp, pymax_eq]
          exact le_max_left _ _
        push_cast
        rw [pymin_eq, le_sub_iff_add_le, le_min_iff]
        constructor
        · linarith
        · linarith
  · intro silences D b hb
    rw [speechBlocks] at hb
    rw [List.mem_append] at hb
    rcases hb with hb | hb
    · exact speechBlocksAux_gap _ 0 b hb
    · split at hb
      · rename_i hfin
        rw [List.mem_singleton] at hb
        subst hb
        dsimp only
        linarith
      · exact absurd hb (List.not_mem_nil b)

/-- Witness for `silence_block_guard` at a concrete block of length
exactly `min_len`. -/
theorem silence_block_guard_inst :
    silenceWindows 0 30 (_clamp (30 - 0) 30 120) 30 15 ≠ [] ↔ (30 : ℚ) ≤ 30 - 0 :=
  (silence_block_guard 0 30 30 120 15 (by norm_num)).1

/-! ## C7: the media cutter pad -/

/-- **C7 (counterexample).** The cutter clamps the padded start at
zero: the valid request `start = 0.5`, `end = 40` extracts `[0, 41.5]`,
not `[-1, 41.5]`, so the extracted segment does not always begin `1.5`
seconds before the requested start. -/
theorem cutter_pad_counterexample :
    ((0 : ℚ) ≤ 1/2 ∧ (1/2 : ℚ) < 40) ∧
    cutInterval (1/2) 40 = (0, 83/2) ∧ (0 : ℚ) ≠ 1/2 - 3/2 := by
  norm_num [cutInterval, pymax]

/-- **C7 (amended).** The cutter extracts `[max(0, start-1.5), end+1.5]`:
the end is always padded by `+1.5` and the start by `-1.5` exactly when
`start ≥ 1.5`; for `start < 1.5` extraction begins at `0`. -/
theorem cutter_pad (start endv : ℚ) :
    (cutInterval start endv).1 = pymax 0 (start - 3/2) ∧
    (cutInterval start endv).2 = endv + 3/2 ∧
    (3/2 ≤ start → (cutInterval start endv).1 = start - 3/2) ∧
    (start < 3/2 → (cutInterval start endv).1 = 0) := by
  refine ⟨rfl, rfl, ?_, ?_⟩
  · intro h
    rw [cutInterval]
    dsimp only
    rw [pymax_eq, max_eq_right (by linarith)]
  · intro h
    rw [cutInterval]
    dsimp only
    rw [pymax_eq, max_eq_left (by linarith)]

/-- Witness for `cutter_pad` at a start far enough from zero. -/
theorem cutter_pad_inst : (cutInterval 2 40).1 = 2 - 3/2 :=
  (cutter_pad 2 40).2.2.1 (by norm_num)

/-! ## C8 and C10: the diversity filter -/

/-- The early-exit similarity loop computes the same boolean as the
universally quantified diversity condition of the spec. -/
theorem isDiverseLoop_eq_all (kwset : Finset String) (threshold : ℚ)
    (kept : List (String × ℚ × Finset String)) :
    isDiverseLoop kwset threshold kept =
      kept.all fun e => decide (jaccard_similarity kwset e.2.2 < threshold) := by
  induction kept with
  | nil => rfl
  | cons e rest ih =>
    rw [isDiverseLoop, List.all_cons, ih]
    by_cases h : threshold ≤ jaccard_similarity kwset e.2.2
    · rw [if_pos h]
      simp [not_lt.mpr h]
    · rw [if_neg h]
      simp [not_le.mp h]

theorem diversityAux_eq_spec (threshold : ℚ) (l : List (String × ℚ × List String)) :
    ∀ kept, diversityAux threshold l kept = diversityAuxSpec threshold l kept := by
  induction l with
  | nil => intro kept; rfl
  | cons it rest ih =>
    intro kept
    obtain ⟨cid, score, kws⟩ := it
    rw [diversityAux, diversityAuxSpec, isDiverseLoop_eq_all]
    split
    · exact ih _
    · exact ih _

/-- Jaccard similarity of a non-empty set with itself is `1`. -/
theorem jaccard_self (S : Finset String) (h : S ≠ ∅) : jaccard_similarity S S = 1 := by
  rw [jaccard_similarity, if_neg (by tauto), Finset.inter_self, Finset.union_self]
  have hc : 1 ≤ S.card := Finset.card_pos.mpr (Finset.nonempty_iff_ne_empty.mpr h)
  rw [max_eq_right hc, div_self]
  exact_mod_cast Nat.pos_iff_ne_zero.mp hc

/-- **C8.** `diversity_filter` coincides with the spec's description
(sort by score descending, then greedily keep a candidate exactly when
its normalized keyword set has Jaccard similarity below the threshold
with every kept candidate); and on two candidates with identical
non-empty keyword sets the higher-scored one alone survives. -/
theorem diversity_filter_correct :
    (∀ (items : List (String × ℚ × List String)) (threshold : ℚ),
      diversity_filter items threshold = diversity_filter_spec items threshold) ∧
    (∀ (idA idB : String) (sA sB : ℚ) (kws : List String),
      sB < sA → normKeywords kws ≠ ∅ →
      diversity_filter [(idA, sA, kws), (idB, sB, kws)] = [idA]) := by
  constructor
  · intro items threshold
    rw [diversity_filter, diversity_filter_spec, diversityAux_eq_spec]
  · intro idA idB sA sB kws hs hne
    rw [diversity_filter, mergeSort_pair, if_pos (decide_eq_true (le_of_lt hs))]
    simp only [diversityAux, isDiverseLoop, jaccard_self _ hne]
    norm_num

/-- Witness for `diversity_filter_correct`: two candidates with the
same keywords, scores 80 and 70; only the first id survives. -/
theorem diversity_filter_inst :
    diversity_filter [("A", 80, ["x", "y"]), ("B", 70, ["x", "y"])] = ["A"] :=
  diversity_filter_correct.2 "A" "B" 80 70 ["x", "y"] (by norm_num) (by decide)

theorem jaccard_empty_left (b : Finset String) : jaccard_similarity ∅ b = 0 := by
  rw [jaccard_similarity]
  split
  · rfl
  · rw [Finset.empty_inter]
    simp

theorem jaccard_empty_right (b : Finset String) : jaccard_similarity b ∅ = 0 := by
  rw [jaccard_similarity]
  split
  · rfl
  · rw [Finset.inter_empty]
    simp

/-- Everything already kept survives the rest of the greedy loop. -/
theorem diversityAux_sub (threshold : ℚ) (l : List (String × ℚ × List String)) :
    ∀ kept, ∀ x ∈ kept, x ∈ diversityAux threshold l kept := by
  induction l with
  | nil => intro kept x hx; rw [diversityAux]; exact hx
  | cons it rest ih =>
    intro kept x hx
    obtain ⟨cid, score, kws⟩ := it
    rw [diversityAux]
    split
    · exact ih _ x (List.mem_append_left _ hx)
    · exact ih _ x hx

/-- A candidate whose normalized keyword set is empty is always kept by
the greedy loop. -/
theorem diversityAux_empty_kw (threshold : ℚ) (hθ : 0 < threshold)
    (l : List (String × ℚ × List String)) :
    ∀ kept, ∀ it ∈ l, normKeywords it.2.2 = ∅ →
      it.1 ∈ (diversityAux threshold l kept).map fun k => k.1 := by
  induction l with
  | nil => intro kept it hit; exact absurd hit (List.not_mem_nil it)
  | cons hd rest ih =>
    intro kept it hit hkw
    obtain ⟨cid, score, kws⟩ := hd
    rw [diversityAux]
    rcases List.mem_cons.mp hit with rfl | hit'
    · dsimp only at hkw ⊢
      have hdiv : isDiverseLoop (normKeywords kws) threshold kept = true := by
        rw [isDiverseLoop_eq_all]
        apply List.all_eq_true.mpr
        intro e he
        apply decide_eq_true
        rw [hkw, jaccard_empty_left]
        exact hθ
      rw [if_pos hdiv]
      exact List.mem_map.mpr
        ⟨(cid, score, normKeywords kws),
          diversityAux_sub threshold rest _ _ (by simp), rfl⟩
    · split
      · exact ih _ it hit' hkw
      · exact ih _ it hit' hkw

/-- **C10.** Jaccard similarity of the empty keyword set with anything
(and of anything with the empty set) is `0`; consequently, for any
positive threshold, every candidate whose keyword list normalizes to the
empty set appears in the diversity filter's output. -/
theorem empty_keywords_always_kept :
    (∀ b : Finset String, jaccard_similarity ∅ b = 0 ∧ jaccard_similarity b ∅ = 0) ∧
    (∀ (items : List (String × ℚ × List String)) (threshold : ℚ), 0 < threshold →
      ∀ it ∈ items, normKeywords it.2.2 = ∅ → it.1 ∈ diversity_filter items threshold) := by
  constructor
  · intro b
    exact ⟨jaccard_empty_left b, jaccard_empty_right b⟩
  · intro items threshold hθ it hit hkw
    rw [diversity_filter]
    exact diversityAux_empty_kw threshold hθ _ [] it (List.mem_mergeSort.mpr hit) hkw

/-- Witness for `empty_keywords_always_kept`: a keywordless candidate
with the lowest score is still kept. -/
theorem empty_keywords_inst :
    "E" ∈ diversity_filter [("A", 80, ["x"]), ("E", 10, [])] (7/10) :=
  empty_keywords_always_kept.2 [("A", 80, ["x"]), ("E", 10, [])] (7/10) (by norm_num)
    ("E", 10, []) (by simp) (by decide)

/-! ## C9: score fusion -/

/-- **C9 (counterexample).** `compute_final_score` sums the penalty
over the risk-flag *list*, not the risk-flag set: with the duplicated
flag list `["sensitive", "sensitive"]` the penalty is `30`, not `15`,
and the final score is `22.4` where the set-based formula of the claim
gives `37.4`. -/
theorem score_fusion_set_penalty_counterexample :
    (compute_final_score 100 "" ["sensitive", "sensitive"] 0).final_score = 112/5 ∧
    (compute_final_score 100 "" ["sensitive", "sensitive"] 0).risk_penalty = 30 ∧
    riskPenaltyOverSet ["sensitive", "sensitive"] = 15 ∧
    pymax 0 (pymin 100
      (0.50 * 100 + 0.18 * hook_score "" + 0.10 * finance_score ""
        + 0.08 * action_score "" + 0.08 * payoff_score "" + 0.04 * clarity_score ""
        + 0.02 * pacing_score (pyWords "".data).length 0
        - riskPenaltyOverSet ["sensitive", "sensitive"])) = 187/5 ∧
    (112/5 : ℚ) ≠ 187/5 := by
  refine ⟨?_, ?_, ?_, ?_, by norm_num⟩ <;>
    simp +decide [compute_final_score, hook_score, finance_score, action_score, payoff_score,
      clarity_score, pacing_score, lowerData, pyWords, splitWsAux, joinSpace, pymin, pymax,
      charCount, countMatches, countAux, riskPenaltyGet, riskPenaltyOverSet, reSearch,
      searchAux, pyCount, pyCountAux, List.intercalate, List.intersperse, HOOK_MARKERS_ID,
      HOOK_MARKERS_EN, FIN_MARKERS, PAYOFF_MARKERS_ID, PAYOFF_MARKERS_EN, VAGUE_MARKERS,
      ACTION_PATTERNS, Pat.run, plusOutcomes, litRun, isBoundary, wordOpt, numTokenPat, litS,
      altPats, altStrs, actionPat1, actionPat2, actionPat3, actionPat4, List.dedup] <;>
    norm_num

/-- **C9 (amended).** `compute_final_score` returns the weighted fusion
`0.50·llm + 0.18·hook + 0.10·finance + 0.08·action + 0.08·payoff +
0.04·clarity + 0.02·pacing − penalty` clamped to `[0, 100]`, where the
penalty sums the fixed table over the risk-flag *list* (one contribution
per occurrence; unknown flags contribute 0).  The list sum agrees with
the claim's set sum whenever the flag list is duplicate-free. -/
theorem score_fusion (llm_score : ℚ) (text : String) (risk_flags : List String)
    (duration_sec : ℚ) :
    (compute_final_score llm_score text risk_flags duration_sec).final_score =
      pymax 0 (pymin 100
        (0.50 * llm_score + 0.18 * hook_score text + 0.10 * finance_score text
          + 0.08 * action_score text + 0.08 * payoff_score text
          + 0.04 * clarity_score text
          + 0.02 * pacing_score (pyWords text.data).length duration_sec
          - (risk_flags.map riskPenaltyGet).sum)) ∧
    (compute_final_score llm_score text risk_flags duration_sec).risk_penalty =
      (risk_flags.map riskPenaltyGet).sum ∧
    (riskPenaltyGet "needs_context" = 10 ∧ riskPenaltyGet "too_slow" = 10 ∧
      riskPenaltyGet "sensitive" = 15 ∧ riskPenaltyGet "unclear_audio" = 10 ∧
      riskPenaltyGet "copyright_music" = 8 ∧
      ∀ f, f ∉ ["needs_context", "too_slow", "sensitive", "unclear_audio",
        "copyright_music"] → riskPenaltyGet f = 0) ∧
    (risk_flags.Nodup →
      (risk_flags.map riskPenaltyGet).sum = riskPenaltyOverSet risk_flags) := by
  refine ⟨rfl, rfl, ⟨rfl, rfl, rfl, rfl, rfl, ?_⟩, ?_⟩
  · intro f hf
    simp only [List.mem_cons, List.not_mem_nil, or_false, not_or] at hf
    rw [riskPenaltyGet, if_neg hf.1, if_neg hf.2.1, if_neg hf.2.2.1, if_neg hf.2.2.2.1,
      if_neg hf.2.2.2.2]
  · intro hnd
    rw [riskPenaltyOverSet, List.dedup_eq_self.mpr hnd]

/-- Witness for `score_fusion`: on a duplicate-free flag list the list
penalty and the set penalty agree. -/
theorem score_fusion_inst :
    (["sensitive"].map riskPenaltyGet).sum = riskPenaltyOverSet ["sensitive"] :=
  (score_fusion 0 "" ["sensitive"] 0).2.2.2 (by simp)

end AutoClipper
